import Mathlib

/-!
Verification of the DocsGPT answer generation pipeline
(src/application/app.py) against its specification.

Python strings are embedded as `List Char` where character-level reasoning
is needed (split, replace, substring tests) and as `String` elsewhere.
Machine integers do not occur; token counts are `Nat`.
-/

set_option maxRecDepth 4000

namespace DocsGPT

/-- Boolean test that the first character list is an initial segment of the
second; embeds the position test performed by Python str.replace and
str.split when looking for an occurrence of the pattern. -/
def leadsWith : List Char → List Char → Bool
  | [], _ => true
  | _ :: _, [] => false
  | a :: as, b :: bs => a == b && leadsWith as bs

/-- Boolean substring-occurrence test on character lists; embeds the Python
`in` test on strings. -/
def hasSub (pat : List Char) : List Char → Bool
  | [] => leadsWith pat []
  | c :: cs => leadsWith pat (c :: cs) || hasSub pat cs

/-- Embeds the first component of Python s.split(sep) for a nonempty sep:
the characters strictly before the first occurrence of sep, or all of s
when sep does not occur. -/
def splitHead (pat : List Char) : List Char → List Char
  | [] => []
  | c :: cs => if leadsWith pat (c :: cs) then [] else c :: splitHead pat cs

/-- Embeds Python s.split(sep) for a single-character separator: the maximal
runs of characters between separator occurrences, keeping empty runs, so
that the result is always nonempty. -/
def pySplitSep (sep : Char) : List Char → List (List Char)
  | [] => [[]]
  | c :: cs =>
    let rest := pySplitSep sep cs
    if c == sep then [] :: rest
    else
      match rest with
      | [] => [[c]]
      | r :: rs => (c :: r) :: rs

/-- Fuel-driven core of `pyReplace`; the fuel starts at the length of the
subject so the zero-fuel case is never reached on the initial call. -/
def pyReplaceAux (pat rep : List Char) : Nat → List Char → List Char
  | _, [] => []
  | 0, s => s
  | fuel + 1, c :: cs =>
    if pat.isEmpty then c :: cs
    else if leadsWith pat (c :: cs) then
      rep ++ pyReplaceAux pat rep fuel (cs.drop (pat.length - 1))
    else c :: pyReplaceAux pat rep fuel cs

/-- Embeds Python s.replace(pat, rep) for a nonempty pattern: every
non-overlapping occurrence of pat, scanning left to right, is replaced by
rep. An empty pattern leaves the subject unchanged (no caller in this
development passes one). -/
def pyReplace (pat rep s : List Char) : List Char :=
  pyReplaceAux pat rep s.length s

/-- String-level wrapper of `pyReplace`. -/
def pyReplaceS (pat rep s : String) : String :=
  ⟨pyReplace pat.data rep.data s.data⟩

/-- Embeds the Python expression sep.join(parts) for the newline separator,
as used on the retrieved passages. -/
def joinWithNewline : List String → String
  | [] => ""
  | [d] => d
  | d :: ds => d ++ "\n" ++ joinWithNewline ds

/-- One prior conversation turn as supplied by the caller: the source reads
the dictionary keys prompt and response, either of which may be missing. -/
structure Turn where
  prompt : Option String
  response : Option String
  deriving DecidableEq, Repr

/-- Role tag of an assembled chat message. The streaming path uses the
literal role strings user and system; the synchronous path builds Human,
System and AI message templates. -/
inductive Role where
  | user
  | system
  | assistantR
  deriving DecidableEq, Repr

/-- One role-tagged message of the assembled model input. -/
structure Msg where
  role : Role
  content : String
  deriving DecidableEq, Repr

/-- One retrieved document: its text and the optional metadata, reduced to
the optional title string that the source reads from it. -/
structure Doc where
  pageContent : String
  metadata : Option String
  deriving DecidableEq, Repr

/-- One source log entry as persisted with a query: title and text. -/
structure SrcLog where
  title : String
  text : String
  deriving DecidableEq, Repr

/-- One wire event of the streaming response, abstracting the JSON payload
of each data: line that complete_stream yields. -/
inductive SEvent where
  | source (doc : String) (meta : Option String)
  | answer (tok : String)
  | ident (cid : Nat)
  | endEv
  deriving DecidableEq, Repr

/-- One query record inside a persisted conversation. -/
structure Query where
  prompt : String
  response : String
  sources : List SrcLog
  deriving DecidableEq, Repr

/-- One persisted conversation document. -/
structure Conversation where
  cid : Nat
  name : String
  queries : List Query
  deriving DecidableEq, Repr

/-- The conversations collection, with the next identifier the store will
allocate on an insert. -/
structure ConvStore where
  nextId : Nat
  convs : List Conversation
  deriving DecidableEq, Repr

/-- Embeds the history budgeting loop that complete_stream (app.py lines
217-223) and api_answer (lines 353-359) share: iterate over the already
reversed history keeping a running token total; a turn carrying both a
prompt and a response whose batch cost keeps the total strictly below
the maximum appends a user message and a response-role message (the
streaming path tags the response with role system, the synchronous path
with the AI role); any other turn is passed over without touching the
total; the scan never stops early. Messages are produced in iteration
order, matching the appends of the source loop. -/
def historyFold (respRole : Role) (cost : String → Nat) (maxHistory : Nat) :
    List Turn → Nat → List Msg
  | [], _ => []
  | i :: rest, running =>
    match i.prompt, i.response with
    | some p, some r =>
      if running + (cost p + cost r) < maxHistory then
        ⟨Role.user, p⟩ :: ⟨respRole, r⟩ ::
          historyFold respRole cost maxHistory rest (running + (cost p + cost r))
      else
        historyFold respRole cost maxHistory rest running
    | _, _ => historyFold respRole cost maxHistory rest running

/-- Embeds the prompt assembly of complete_stream (app.py lines 198-224):
the retrieved passages are joined with newlines in rank order and
substituted for the summaries placeholder of the combine template to form
the system message; a history longer than one turn is reversed in place
and budgeted into user/system message pairs; the question closes the list
as a user message. Returns the assembled messages together with the final
state of the caller-supplied history list. -/
def stream_messages_combine (cost : String → Nat) (maxHistory : Nat)
    (combineTemplate question : String) (docs : List Doc)
    (chatHistory : List Turn) : List Msg × List Turn :=
  let docsTogether := joinWithNewline (docs.map Doc.pageContent)
  let pChatCombine := pyReplaceS "{summaries}" docsTogether combineTemplate
  if 1 < chatHistory.length then
    (⟨Role.system, pChatCombine⟩ ::
        historyFold Role.system cost maxHistory chatHistory.reverse 0
        ++ [⟨Role.user, question⟩],
      chatHistory.reverse)
  else
    ([⟨Role.system, pChatCombine⟩, ⟨Role.user, question⟩], chatHistory)

/-- Embeds the prompt assembly of api_answer for the chat backend (app.py
lines 348-361): the combine template forms the system message with no
interpolation at assembly time; a nonempty history (even a single turn) is
reversed in place and budgeted into user/AI message pairs; the question
placeholder closes the list as a user message. Returns the assembled
messages together with the final state of the caller-supplied history
list. -/
def api_messages_combine (cost : String → Nat) (maxHistory : Nat)
    (combineTemplate : String) (history : List Turn) : List Msg × List Turn :=
  if history.isEmpty then
    ([⟨Role.system, combineTemplate⟩, ⟨Role.user, "{question}"⟩], history)
  else
    (⟨Role.system, combineTemplate⟩ ::
        historyFold Role.assistantR cost maxHistory history.reverse 0
        ++ [⟨Role.user, "{question}"⟩],
      history.reverse)

/-- Embeds the source emission loop of complete_stream (app.py lines
203-211): each retrieved document yields one source event (carrying its
metadata when present) and one source log entry whose title is the last
slash-separated component of the metadata title, falling back to the
passage text itself when metadata is absent. -/
def sourcePass : List Doc → List SEvent × List SrcLog
  | [] => ([], [])
  | d :: ds =>
    let rest := sourcePass ds
    match d.metadata with
    | some m =>
      (SEvent.source d.pageContent (some m) :: rest.1,
        ⟨⟨(pySplitSep '/' m.data).getLastD []⟩, d.pageContent⟩ :: rest.2)
    | none =>
      (SEvent.source d.pageContent none :: rest.1,
        ⟨d.pageContent, d.pageContent⟩ :: rest.2)

/-- Embeds the completion loop of complete_stream (app.py lines 227-233):
each streamed chunk optionally carries a content delta; every delta that
does carry content is emitted as one answer event and appended to the
accumulated full response, in arrival order. -/
def answerPass : List (Option String) → List SEvent × String
  | [] => ([], "")
  | none :: rest => answerPass rest
  | some c :: rest =>
    let r := answerPass rest
    (SEvent.answer c :: r.1, c ++ r.2)

/-- Models pymongo update_one with a push on the queries array, as issued
by the source: when a stored conversation matches the identifier, the
query record is appended to its list and the matched count is 1; when
nothing matches, the store is left unchanged and the matched count is 0.
update_one raises no error and performs no upsert on a miss. -/
def updateOnePush (store : ConvStore) (cid : Nat) (q : Query) :
    ConvStore × Nat :=
  if store.convs.any (fun c => c.cid = cid) then
    (⟨store.nextId,
      store.convs.map (fun c =>
        if c.cid = cid then ⟨c.cid, c.name, c.queries ++ [q]⟩ else c)⟩, 1)
  else
    (store, 0)

/-- Models pymongo insert_one on the conversations collection: a fresh
identifier is allocated, the new conversation document is appended, and
the inserted identifier is returned. -/
def insertOne (store : ConvStore) (name : String) (q : Query) :
    ConvStore × Nat :=
  (⟨store.nextId + 1, store.convs ++ [⟨store.nextId, name, [q]⟩]⟩,
    store.nextId)

/-- Embeds the conversation persistence shared by complete_stream (app.py
lines 235-259) and api_answer (lines 424-451): a present conversation
identifier leads to an update_one push on that identifier and the
identifier is returned unchanged; an absent one leads to a summary
backend call (whose returned text arrives here as summaryName) and an
insert_one creating the new record, whose identifier is returned. -/
def persistConversation (store : ConvStore) (convId : Option Nat)
    (question answer : String) (sources : List SrcLog)
    (summaryName : String) : ConvStore × Nat :=
  match convId with
  | some cid => ((updateOnePush store cid ⟨question, answer, sources⟩).1, cid)
  | none => insertOne store summaryName ⟨question, answer, sources⟩

/-- Embeds complete_stream (app.py lines 182-265) as the ordered list of
emitted events together with the resulting store, the identifier sent in
the id event, and the final state of the caller-supplied history list:
one source event per retrieved document, prompt assembly with history
budgeting, one answer event per content chunk, persistence, then the id
event and the terminal end event. -/
def complete_stream (cost : String → Nat) (maxHistory : Nat)
    (combineTemplate question : String) (docs : List Doc)
    (chatHistory : List Turn) (chunks : List (Option String))
    (convId : Option Nat) (store : ConvStore) (summaryName : String) :
    List SEvent × ConvStore × Nat × List Turn :=
  let src := sourcePass docs
  let asm := stream_messages_combine cost maxHistory combineTemplate question
    docs chatHistory
  let ans := answerPass chunks
  let persisted := persistConversation store convId question ans.2 src.2
    summaryName
  (src.1 ++ ans.1 ++ [SEvent.ident persisted.2, SEvent.endEv],
    persisted.1, persisted.2, asm.2)

/-- The character list of the sources delimiter marker. -/
def sourcesMarker : List Char := "SOURCES:".data

/-- The two-character pattern backslash-n removed by the answer
normalization step. -/
def backslashN : List Char := "\x5cn".data

/-- Embeds the answer formatting of api_answer (app.py lines 406-412): the
raw backend answer has every literal backslash-n replaced by a newline and
is then cut at the first occurrence of the sources marker, keeping only
the text strictly before it. -/
def api_format_answer (raw : List Char) : List Char :=
  splitHead sourcesMarker (pyReplace backslashN "\n".data raw)

/-- Models os.path.join for the relative second components produced by
get_vectorstore: an empty component leaves only a trailing separator. -/
def osPathJoin (a b : String) : String :=
  if b = "" then a ++ "/" else a ++ "/" ++ b

/-- Embeds get_vectorstore (app.py lines 128-142): the active_docs
selector is split on slashes; scope local with name default resolves to
the empty component, scope local with another name to an indexes path
keyed by the whole selector, any other scope to a vectors path keyed by
the whole selector; a selector equal to default, like an absent selector,
resolves to the empty component; the result is joined under the
application directory. A bare local selector with no second component
raises an IndexError on the subscript, modelled as the error case. -/
def get_vectorstore (activeDocs : Option String) : Except Unit String :=
  match activeDocs with
  | none => Except.ok (osPathJoin "application" "")
  | some s =>
    let parts := (pySplitSep '/' s.data).map (fun l => (⟨l⟩ : String))
    if parts.headD "" = "local" then
      match parts[1]? with
      | none => Except.error ()
      | some n =>
        let v := if n = "default" then "" else "indexes/" ++ s
        let v := if s = "default" then "" else v
        Except.ok (osPathJoin "application" v)
    else
      let v := "vectors/" ++ s
      let v := if s = "default" then "" else v
      Except.ok (osPathJoin "application" v)

/-- The configuration flags that drive backend selection in api_answer. -/
structure Config where
  llmName : String
  selfHostedModel : Bool
  deriving DecidableEq, Repr

/-- The supported backend variants of api_answer. -/
inductive LLMKind where
  | openaiChat
  | openaiCompletion
  | selfHostedLLM
  | cohereLLM
  deriving DecidableEq, Repr

/-- Embeds the backend selection chain of api_answer (app.py lines
336-369), first match winning: the chat model name, then the plain
completion model name, then the self-hosted flag, then the cohere name;
anything else raises the unknown LLM model ValueError, modelled as none. -/
def selectLLM (cfg : Config) : Option LLMKind :=
  if cfg.llmName = "openai_chat" then some LLMKind.openaiChat
  else if cfg.llmName = "openai" then some LLMKind.openaiCompletion
  else if cfg.selfHostedModel then some LLMKind.selfHostedLLM
  else if cfg.llmName = "cohere" then some LLMKind.cohereLLM
  else none

/-- The externally visible operations of the api_answer request body, in
the order the source performs them. -/
inductive Step where
  | resolveStep
  | loadIndexStep
  | chainRunStep
  | simSearchStep
  | persistStep
  deriving DecidableEq, Repr

/-- Embeds the operation order of the api_answer try block (app.py lines
326-451): get_vectorstore resolves the store and get_docsearch loads the
index before the backend selection branch runs; only after a successful
selection do the chain run, the provenance similarity search and the
persistence happen. The boolean records whether the request succeeded or
the unknown-model error was raised. -/
def api_answer_steps (cfg : Config) : List Step × Bool :=
  match selectLLM cfg with
  | none => ([Step.resolveStep, Step.loadIndexStep], false)
  | some _ =>
    ([Step.resolveStep, Step.loadIndexStep, Step.chainRunStep,
      Step.simSearchStep, Step.persistStep], true)


deriving instance DecidableEq for Except

/-- Modelled from the spec (claim C1 wording, spec section 4.3): scan the
turns most-recent-first (the caller passes the reversed history), keep a
running token total, include a turn exactly when the running total plus
the cost of its prompt plus the cost of its response stays strictly below
the maximum, and keep scanning older turns after an exclusion. The
included turns are returned in scan order, most-recent-first. -/
def specIncluded (cost : String → Nat) (maxHistory : Nat) :
    List Turn → Nat → List Turn
  | [], _ => []
  | t :: rest, running =>
    if running + (cost (t.prompt.getD "") + cost (t.response.getD "")) < maxHistory then
      t :: specIncluded cost maxHistory rest
        (running + (cost (t.prompt.getD "") + cost (t.response.getD "")))
    else
      specIncluded cost maxHistory rest running

/-- Renders one included turn as its user/response message pair. -/
def turnPair (respRole : Role) (t : Turn) : List Msg :=
  [⟨Role.user, t.prompt.getD ""⟩, ⟨respRole, t.response.getD ""⟩]

theorem leadsWith_trans {a b c : List Char} (hab : leadsWith a b = true)
    (hbc : leadsWith b c = true) : leadsWith a c = true := by
  induction a generalizing b c with
  | nil => rfl
  | cons x xs ih =>
    cases b with
    | nil => simp [leadsWith] at hab
    | cons y ys =>
      cases c with
      | nil => simp [leadsWith] at hbc
      | cons z zs =>
        simp [leadsWith] at hab hbc ⊢
        exact ⟨hab.1.trans hbc.1, ih hab.2 hbc.2⟩

theorem splitHead_leads (pat s : List Char) :
    leadsWith (splitHead pat s) s = true := by
  induction s with
  | nil => rfl
  | cons c cs ih =>
    by_cases h : leadsWith pat (c :: cs) = true
    · simp [splitHead, h, leadsWith]
    · simp [splitHead, h, leadsWith, ih]

theorem hasSub_splitHead (pat : List Char) (hne : pat ≠ []) (s : List Char) :
    hasSub pat (splitHead pat s) = false := by
  obtain ⟨p, ps, rfl⟩ : ∃ p ps, pat = p :: ps := by
    cases pat with
    | nil => exact absurd rfl hne
    | cons p ps => exact ⟨p, ps, rfl⟩
  induction s with
  | nil => simp [splitHead, hasSub, leadsWith]
  | cons c cs ih =>
    by_cases h : leadsWith (p :: ps) (c :: cs) = true
    · simp only [splitHead, if_pos h]
      simp [hasSub, leadsWith]
    · have ht : leadsWith (c :: splitHead (p :: ps) cs) (c :: cs) = true := by
        simp [leadsWith, splitHead_leads]
      have hlead : leadsWith (p :: ps) (c :: splitHead (p :: ps) cs) = false := by
        by_contra h2
        rw [Bool.not_eq_false] at h2
        exact h (leadsWith_trans h2 ht)
      simp only [splitHead, if_neg h]
      simp [hasSub, hlead, ih]

theorem splitHead_of_not_hasSub (pat s : List Char)
    (h : hasSub pat s = false) : splitHead pat s = s := by
  induction s with
  | nil => rfl
  | cons c cs ih =>
    simp only [hasSub, Bool.or_eq_false_iff] at h
    simp [splitHead, h.1, ih h.2]

theorem historyFold_eq_specIncluded (respRole : Role) (cost : String → Nat)
    (maxHistory : Nat) (l : List Turn) (running : Nat)
    (hfull : ∀ t ∈ l, t.prompt.isSome ∧ t.response.isSome) :
    historyFold respRole cost maxHistory l running =
      (specIncluded cost maxHistory l running).flatMap (turnPair respRole) := by
  induction l generalizing running with
  | nil => rfl
  | cons i rest ih =>
    obtain ⟨hp, hr⟩ := hfull i (List.mem_cons_self i rest)
    obtain ⟨p, hps⟩ := Option.isSome_iff_exists.mp hp
    obtain ⟨r, hrs⟩ := Option.isSome_iff_exists.mp hr
    have hrest : ∀ t ∈ rest, t.prompt.isSome ∧ t.response.isSome :=
      fun t ht => hfull t (List.mem_cons_of_mem i ht)
    by_cases hfit : running + (cost p + cost r) < maxHistory
    · simp [historyFold, specIncluded, hps, hrs, hfit, turnPair, ih _ hrest]
    · simp [historyFold, specIncluded, hps, hrs, hfit, ih _ hrest]

theorem specIncluded_sublist (cost : String → Nat) (maxHistory : Nat)
    (l : List Turn) (running : Nat) :
    (specIncluded cost maxHistory l running).Sublist l := by
  induction l generalizing running with
  | nil => exact List.Sublist.refl _
  | cons t rest ih =>
    by_cases hfit :
        running + (cost (t.prompt.getD "") + cost (t.response.getD "")) < maxHistory
    · simpa [specIncluded, hfit] using List.Sublist.cons₂ t (ih _)
    · simpa [specIncluded, hfit] using List.Sublist.cons t (ih _)

theorem sourcePass_events (docs : List Doc) :
    (sourcePass docs).1 =
      docs.map (fun d => SEvent.source d.pageContent d.metadata) := by
  induction docs with
  | nil => rfl
  | cons d ds ih =>
    cases hm : d.metadata with
    | some m => simp [sourcePass, hm, ih]
    | none => simp [sourcePass, hm, ih]

theorem answerPass_spec (chunks : List (Option String)) :
    (answerPass chunks).1 = (chunks.filterMap id).map SEvent.answer ∧
    (answerPass chunks).2 = (chunks.filterMap id).foldr (fun a b => a ++ b) "" := by
  induction chunks with
  | nil => exact ⟨rfl, rfl⟩
  | cons c rest ih =>
    cases c with
    | none => simpa [answerPass, List.filterMap_cons] using ih
    | some t => simp [answerPass, List.filterMap_cons, ih.1, ih.2]

/-- Modelled from the claim C1 wording: the assembled streaming prompt
with the included subset re-oriented chronologically, oldest of the
included turns first. -/
def specMessagesC1 (cost : String → Nat) (maxHistory : Nat)
    (combineTemplate question : String) (docs : List Doc)
    (chatHistory : List Turn) : List Msg :=
  ⟨Role.system, pyReplaceS "{summaries}"
      (joinWithNewline (docs.map Doc.pageContent)) combineTemplate⟩ ::
    (specIncluded cost maxHistory chatHistory.reverse 0).reverse.flatMap
        (turnPair Role.system)
    ++ [⟨Role.user, question⟩]

/-- Modelled from the claim C6 wording: one system message carrying the
instruction template with the retrieved passages interpolated (newline
separated, rank order), then the budgeted history as alternating
user/assistant message pairs, then the final user message holding the
question. -/
def specMessagesC6 (cost : String → Nat) (maxHistory : Nat)
    (combineTemplate question : String) (docs : List Doc)
    (hist : List Turn) : List Msg :=
  ⟨Role.system, pyReplaceS "{summaries}"
      (joinWithNewline (docs.map Doc.pageContent)) combineTemplate⟩ ::
    (specIncluded cost maxHistory hist.reverse 0).flatMap
        (turnPair Role.assistantR)
    ++ [⟨Role.user, question⟩]

/-- The amended form of `specMessagesC6`: identical except that the
response half of every history pair carries role system, which is the
role string the streaming path actually emits. -/
def specMessagesC6System (cost : String → Nat) (maxHistory : Nat)
    (combineTemplate question : String) (docs : List Doc)
    (hist : List Turn) : List Msg :=
  ⟨Role.system, pyReplaceS "{summaries}"
      (joinWithNewline (docs.map Doc.pageContent)) combineTemplate⟩ ::
    (specIncluded cost maxHistory hist.reverse 0).flatMap
        (turnPair Role.system)
    ++ [⟨Role.user, question⟩]

/-- Claim C1, as stated, is false on the code: with two cheap turns that
both fit the budget, the assembled streaming prompt carries the included
turns most-recent-first, not oldest-of-the-included-first as the claim
requires. -/
theorem claim1_counterexample :
    (stream_messages_combine String.length 100 "T" "q" []
        [⟨some "a", some "b"⟩, ⟨some "c", some "d"⟩]).1 ≠
      specMessagesC1 String.length 100 "T" "q" []
        [⟨some "a", some "b"⟩, ⟨some "c", some "d"⟩] := by decide

/-- Claim C1, amended: for a history longer than one turn whose turns all
carry both fields, the budgeting step scans most-recent-first with a
running total, includes a turn exactly when the total plus its cost stays
strictly below the maximum, keeps scanning after an exclusion, and the
included subset appears in the assembled prompt most-recent-first (a
sublist of the reversed history), not oldest-first. -/
theorem claim1_amended (cost : String → Nat) (maxHistory : Nat)
    (tmpl question : String) (docs : List Doc) (hist : List Turn)
    (hlen : 1 < hist.length)
    (hfull : ∀ t ∈ hist, t.prompt.isSome ∧ t.response.isSome) :
    (stream_messages_combine cost maxHistory tmpl question docs hist).1 =
      ⟨Role.system, pyReplaceS "{summaries}"
          (joinWithNewline (docs.map Doc.pageContent)) tmpl⟩ ::
        (specIncluded cost maxHistory hist.reverse 0).flatMap
            (turnPair Role.system)
        ++ [⟨Role.user, question⟩] ∧
    (specIncluded cost maxHistory hist.reverse 0).Sublist hist.reverse := by
  have hrev : ∀ t ∈ hist.reverse, t.prompt.isSome ∧ t.response.isSome :=
    fun t ht => hfull t (List.mem_reverse.mp ht)
  refine ⟨?_, specIncluded_sublist _ _ _ _⟩
  simp [stream_messages_combine, hlen,
    historyFold_eq_specIncluded Role.system cost maxHistory hist.reverse 0 hrev]

theorem claim1_witness :
    (1 < ([⟨some "a", some "b"⟩, ⟨some "c", some "d"⟩] : List Turn).length) ∧
    (stream_messages_combine String.length 100 "T" "q" []
        [⟨some "a", some "b"⟩, ⟨some "c", some "d"⟩]).1 =
      ⟨Role.system, pyReplaceS "{summaries}"
          (joinWithNewline (([] : List Doc).map Doc.pageContent)) "T"⟩ ::
        (specIncluded String.length 100
            ([⟨some "a", some "b"⟩, ⟨some "c", some "d"⟩] : List Turn).reverse 0).flatMap
            (turnPair Role.system)
        ++ [⟨Role.user, "q"⟩] :=
  ⟨by decide,
    (claim1_amended String.length 100 "T" "q" []
      [⟨some "a", some "b"⟩, ⟨some "c", some "d"⟩] (by decide) (by decide)).1⟩

/-- Claim C6, as stated, is false on the code: the streaming path tags the
response half of every history pair with role system, not with the
assistant role the claim requires. -/
theorem claim6_counterexample :
    (stream_messages_combine String.length 100 "T" "q" []
        [⟨some "a", some "b"⟩, ⟨some "c", some "d"⟩]).1 ≠
      specMessagesC6 String.length 100 "T" "q" []
        [⟨some "a", some "b"⟩, ⟨some "c", some "d"⟩] := by decide

/-- Claim C6, amended: the assembled streaming input is one system message
carrying the template with the passages interpolated (newline joined in
rank order), then the budgeted history as alternating user/system pairs
(role system, not assistant, on the response half), then the final user
message holding the question. -/
theorem claim6_amended (cost : String → Nat) (maxHistory : Nat)
    (tmpl question : String) (docs : List Doc) (hist : List Turn)
    (hlen : 1 < hist.length)
    (hfull : ∀ t ∈ hist, t.prompt.isSome ∧ t.response.isSome) :
    (stream_messages_combine cost maxHistory tmpl question docs hist).1 =
      specMessagesC6System cost maxHistory tmpl question docs hist := by
  have hrev : ∀ t ∈ hist.reverse, t.prompt.isSome ∧ t.response.isSome :=
    fun t ht => hfull t (List.mem_reverse.mp ht)
  simp [stream_messages_combine, specMessagesC6System, hlen,
    historyFold_eq_specIncluded Role.system cost maxHistory hist.reverse 0 hrev]

theorem claim6_witness :
    (1 < ([⟨some "e", some "f"⟩, ⟨some "g", some "h"⟩] : List Turn).length) ∧
    (stream_messages_combine String.length 50 "S{summaries}E" "qq"
        [⟨"D1", none⟩, ⟨"D2", none⟩]
        [⟨some "e", some "f"⟩, ⟨some "g", some "h"⟩]).1 =
      specMessagesC6System String.length 50 "S{summaries}E" "qq"
        [⟨"D1", none⟩, ⟨"D2", none⟩]
        [⟨some "e", some "f"⟩, ⟨some "g", some "h"⟩] :=
  ⟨by decide,
    claim6_amended String.length 50 "S{summaries}E" "qq"
      [⟨"D1", none⟩, ⟨"D2", none⟩]
      [⟨some "e", some "f"⟩, ⟨some "g", some "h"⟩] (by decide) (by decide)⟩

/-- Claim C7, as stated, is false on the code: in the streaming path a
history of exactly one turn is left untouched but its turn never reaches
the assembled prompt, which consists of the system message and the
question only. -/
theorem claim7_counterexample :
    stream_messages_combine String.length 1000 "T" "q" []
        [⟨some "p1", some "r1"⟩] =
      ([⟨Role.system, "T"⟩, ⟨Role.user, "q"⟩], [⟨some "p1", some "r1"⟩]) ∧
    (⟨Role.user, "p1"⟩ : Msg) ∉
      (stream_messages_combine String.length 1000 "T" "q" []
        [⟨some "p1", some "r1"⟩]).1 ∧
    (⟨Role.system, "r1"⟩ : Msg) ∉
      (stream_messages_combine String.length 1000 "T" "q" []
        [⟨some "p1", some "r1"⟩]).1 := by decide

/-- Claim C7, amended: in the streaming path a history of length at most
one is passed through untouched, with no budget evaluation and with no
history message in the assembled prompt; in the synchronous path only an
empty history skips budgeting, while a single full turn is still reversed
(a no-op) and budget-evaluated, entering the prompt exactly when its cost
is strictly below the maximum. -/
theorem claim7_amended (cost : String → Nat) (maxHistory : Nat)
    (tmpl question : String) (docs : List Doc) :
    (∀ hist : List Turn, hist.length ≤ 1 →
      stream_messages_combine cost maxHistory tmpl question docs hist =
        ([⟨Role.system, pyReplaceS "{summaries}"
              (joinWithNewline (docs.map Doc.pageContent)) tmpl⟩,
          ⟨Role.user, question⟩], hist)) ∧
    (∀ p r : String,
      api_messages_combine cost maxHistory tmpl [⟨some p, some r⟩] =
        (⟨Role.system, tmpl⟩ ::
            (if cost p + cost r < maxHistory then
              [⟨Role.user, p⟩, ⟨Role.assistantR, r⟩] else [])
            ++ [⟨Role.user, "{question}"⟩],
          [⟨some p, some r⟩])) := by
  constructor
  · intro hist hlen
    have hnot : ¬ 1 < hist.length := by omega
    simp [stream_messages_combine, hnot]
  · intro p r
    by_cases hfit : cost p + cost r < maxHistory
    · simp [api_messages_combine, historyFold, hfit]
    · simp [api_messages_combine, historyFold, hfit]

theorem claim7_witness :
    (([⟨some "p1", some "r1"⟩] : List Turn).length ≤ 1) ∧
    stream_messages_combine String.length 7 "T" "q" []
        [⟨some "p1", some "r1"⟩] =
      ([⟨Role.system, pyReplaceS "{summaries}"
            (joinWithNewline (([] : List Doc).map Doc.pageContent)) "T"⟩,
        ⟨Role.user, "q"⟩], [⟨some "p1", some "r1"⟩]) :=
  ⟨by decide,
    (claim7_amended String.length 7 "T" "q" []).1
      [⟨some "p1", some "r1"⟩] (by decide)⟩

/-- Claim C9, as stated, is false on the code: a turn possessing a prompt
but no response possesses at least one of the two fields, yet the
budgeting loop skips it entirely instead of budgeting it. -/
theorem claim9_counterexample :
    historyFold Role.system String.length 1000 [⟨some "aa", none⟩] 0 = [] ∧
    ((⟨some "aa", none⟩ : Turn).prompt.isSome
      || (⟨some "aa", none⟩ : Turn).response.isSome) = true := by decide

/-- Claim C9, amended: a turn is skipped without affecting the running
budget exactly when it lacks at least one of the prompt and response
fields; only a turn possessing both is budgeted and eligible for
inclusion. -/
theorem claim9_amended (respRole : Role) (cost : String → Nat)
    (maxHistory : Nat) :
    (∀ (t : Turn) (rest : List Turn) (running : Nat),
      t.prompt = none ∨ t.response = none →
      historyFold respRole cost maxHistory (t :: rest) running =
        historyFold respRole cost maxHistory rest running) ∧
    (∀ (p r : String) (rest : List Turn) (running : Nat),
      historyFold respRole cost maxHistory (⟨some p, some r⟩ :: rest) running =
        if running + (cost p + cost r) < maxHistory then
          ⟨Role.user, p⟩ :: ⟨respRole, r⟩ ::
            historyFold respRole cost maxHistory rest (running + (cost p + cost r))
        else historyFold respRole cost maxHistory rest running) := by
  constructor
  · rintro ⟨tp, tr⟩ rest running (h | h)
    · subst h
      cases tr <;> simp [historyFold]
    · subst h
      cases tp <;> simp [historyFold]
  · intro p r rest running
    by_cases hfit : running + (cost p + cost r) < maxHistory
    · simp [historyFold, hfit]
    · simp [historyFold, hfit]

theorem claim9_witness :
    ((⟨some "aa", none⟩ : Turn).prompt = none
      ∨ (⟨some "aa", none⟩ : Turn).response = none) ∧
    historyFold Role.system String.length 1000
        [⟨some "aa", none⟩, ⟨some "b", some "c"⟩] 0 =
      historyFold Role.system String.length 1000 [⟨some "b", some "c"⟩] 0 :=
  ⟨Or.inr rfl,
    (claim9_amended Role.system String.length 1000).1
      ⟨some "aa", none⟩ [⟨some "b", some "c"⟩] 0 (Or.inr rfl)⟩

/-- Claim C10: when the history is longer than one turn, both the
streaming and the synchronous budgeting steps reverse the caller-supplied
history list in place, so the caller is left holding the reverse of what
it supplied. -/
theorem claim10_history_reversed (cost : String → Nat) (maxHistory : Nat)
    (tmplS tmplA question : String) (docs : List Doc) (hist : List Turn)
    (hlen : 1 < hist.length) :
    (stream_messages_combine cost maxHistory tmplS question docs hist).2 =
      hist.reverse ∧
    (api_messages_combine cost maxHistory tmplA hist).2 = hist.reverse := by
  have hne : hist.isEmpty = false := by
    cases hist
    · simp at hlen
    · simp
  exact ⟨by simp [stream_messages_combine, hlen],
    by simp [api_messages_combine, hne]⟩

theorem claim10_witness :
    (1 < ([⟨some "a", some "b"⟩, ⟨some "c", some "d"⟩] : List Turn).length) ∧
    (stream_messages_combine String.length 100 "T" "q" []
        [⟨some "a", some "b"⟩, ⟨some "c", some "d"⟩]).2 =
      ([⟨some "a", some "b"⟩, ⟨some "c", some "d"⟩] : List Turn).reverse ∧
    (api_messages_combine String.length 100 "T"
        [⟨some "a", some "b"⟩, ⟨some "c", some "d"⟩]).2 =
      ([⟨some "a", some "b"⟩, ⟨some "c", some "d"⟩] : List Turn).reverse :=
  ⟨by decide,
    (claim10_history_reversed String.length 100 "T" "T" "q" []
      [⟨some "a", some "b"⟩, ⟨some "c", some "d"⟩] (by decide)).1,
    (claim10_history_reversed String.length 100 "T" "T" "q" []
      [⟨some "a", some "b"⟩, ⟨some "c", some "d"⟩] (by decide)).2⟩

/-- Claim C2: a normally completing streaming request emits exactly one
source event per retrieved passage in retrieval order, then one answer
event per content increment in generation order, then exactly one id
event carrying the conversation identifier, then exactly one terminal end
event; the accumulated answer is the concatenation of the increments. -/
theorem claim2_stream_event_order (cost : String → Nat) (maxHistory : Nat)
    (tmpl question : String) (docs : List Doc) (hist : List Turn)
    (chunks : List (Option String)) (convId : Option Nat)
    (store : ConvStore) (nm : String) :
    (complete_stream cost maxHistory tmpl question docs hist chunks convId
        store nm).1 =
      docs.map (fun d => SEvent.source d.pageContent d.metadata)
        ++ (chunks.filterMap id).map SEvent.answer
        ++ [SEvent.ident (complete_stream cost maxHistory tmpl question docs
              hist chunks convId store nm).2.2.1,
            SEvent.endEv] ∧
    (answerPass chunks).2 =
      (chunks.filterMap id).foldr (fun a b => a ++ b) "" := by
  refine ⟨?_, (answerPass_spec chunks).2⟩
  simp [complete_stream, sourcePass_events, (answerPass_spec chunks).1]

/-- Claim C3, as stated, is false on the code: the streaming path persists
the raw concatenation of the increments without stripping, so a raw
backend output containing the sources marker is stored marker and all. -/
theorem claim3_counterexample :
    complete_stream String.length 100 "T" "q" [] []
        [some "abc ", some "SOURCES: x"] (some 3) ⟨4, [⟨3, "nm", []⟩]⟩
        "sum" =
      ([SEvent.answer "abc ", SEvent.answer "SOURCES: x",
          SEvent.ident 3, SEvent.endEv],
        ⟨4, [⟨3, "nm", [⟨"q", "abc SOURCES: x", []⟩]⟩]⟩, 3, []) ∧
    hasSub sourcesMarker "abc SOURCES: x".data = true := by decide

/-- Claim C3, amended: the synchronous path strips as claimed, so its
returned and persisted answer never contains the sources marker or any
text at or after it, and when the normalized raw output lacks the marker
the strip step passes it through unchanged; the streaming path, by
contrast, persists the raw concatenation unstripped. -/
theorem claim3_amended (raw : List Char) :
    hasSub sourcesMarker (api_format_answer raw) = false ∧
    (hasSub sourcesMarker (pyReplace backslashN "\n".data raw) = false →
      api_format_answer raw = pyReplace backslashN "\n".data raw) := by
  constructor
  · exact hasSub_splitHead sourcesMarker (by decide) _
  · intro h
    exact splitHead_of_not_hasSub _ _ h

theorem claim3_witness :
    (hasSub sourcesMarker
        (pyReplace backslashN "\n".data "hello".data) = false) ∧
    hasSub sourcesMarker (api_format_answer "hello".data) = false ∧
    api_format_answer "hello".data =
      pyReplace backslashN "\n".data "hello".data :=
  ⟨by decide, (claim3_amended "hello".data).1,
    (claim3_amended "hello".data).2 (by decide)⟩

/-- Claim C4, as stated, is false on the code: appending against an
identifier held by no stored conversation raises nothing and is a silent
no-op; the stream still completes normally through the id and end events
and the store is left unchanged, with no record created. -/
theorem claim4_counterexample :
    complete_stream String.length 100 "T" "q" [] [] [some "hi"] (some 7)
        ⟨5, []⟩ "nm" =
      ([SEvent.answer "hi", SEvent.ident 7, SEvent.endEv], ⟨5, []⟩, 7, []) ∧
    updateOnePush ⟨5, []⟩ 7 ⟨"q", "hi", []⟩ = (⟨5, []⟩, 0) := by decide

/-- Claim C4, amended: appending against an identifier that resolves to no
stored conversation matches zero documents: no error of any kind is
raised (there is no distinct ConversationNotFound), the store is returned
unchanged, and no new conversation record is created. -/
theorem claim4_amended (store : ConvStore) (cid : Nat) (q : Query)
    (hmiss : ∀ c ∈ store.convs, c.cid ≠ cid) :
    updateOnePush store cid q = (store, 0) ∧
    (∀ question answer sources nm,
      persistConversation store (some cid) question answer sources nm =
        (store, cid)) ∧
    (∀ cost maxHistory tmpl question docs hist chunks nm,
      (complete_stream cost maxHistory tmpl question docs hist chunks
          (some cid) store nm).2.1 = store) := by
  have hany : store.convs.any (fun c => c.cid = cid) = false := by
    rw [List.any_eq_false]
    intro c hc
    simp [hmiss c hc]
  refine ⟨?_, ?_, ?_⟩
  · simp [updateOnePush, hany]
  · intro question answer sources nm
    simp [persistConversation, updateOnePush, hany]
  · intro cost maxHistory tmpl question docs hist chunks nm
    simp [complete_stream, persistConversation, updateOnePush, hany]

theorem claim4_witness :
    (∀ c ∈ (⟨5, [⟨3, "nm", []⟩]⟩ : ConvStore).convs, c.cid ≠ 7) ∧
    updateOnePush ⟨5, [⟨3, "nm", []⟩]⟩ 7 ⟨"q", "a", []⟩ =
      (⟨5, [⟨3, "nm", []⟩]⟩, 0) :=
  ⟨by decide,
    (claim4_amended ⟨5, [⟨3, "nm", []⟩]⟩ 7 ⟨"q", "a", []⟩ (by decide)).1⟩

/-- Claim C5, as stated, is false on the code: with a configuration that
matches no supported backend, api_answer still resolves the vector store
and loads the index through get_docsearch before the selection branch
raises the unknown-model error, so an index load does occur before the
failure. -/
theorem claim5_counterexample :
    api_answer_steps ⟨"gpt4", false⟩ =
      ([Step.resolveStep, Step.loadIndexStep], false) ∧
    Step.loadIndexStep ∈ (api_answer_steps ⟨"gpt4", false⟩).1 := by decide

/-- Claim C5, amended: an unsupported model configuration makes
api_answer fail with the unknown-model error after the vector store
resolution and the index load, but before any chain run, any provenance
similarity search and any persistence. -/
theorem claim5_amended (cfg : Config) (h : selectLLM cfg = none) :
    api_answer_steps cfg = ([Step.resolveStep, Step.loadIndexStep], false) ∧
    Step.chainRunStep ∉ (api_answer_steps cfg).1 ∧
    Step.simSearchStep ∉ (api_answer_steps cfg).1 ∧
    Step.persistStep ∉ (api_answer_steps cfg).1 := by
  have he : api_answer_steps cfg =
      ([Step.resolveStep, Step.loadIndexStep], false) := by
    simp [api_answer_steps, h]
  refine ⟨he, ?_, ?_, ?_⟩ <;> rw [he] <;> decide

theorem claim5_witness :
    selectLLM ⟨"gpt4", false⟩ = none ∧
    api_answer_steps ⟨"gpt4", false⟩ =
      ([Step.resolveStep, Step.loadIndexStep], false) :=
  ⟨by decide, (claim5_amended ⟨"gpt4", false⟩ (by decide)).1⟩

/-- Claim C8, as stated, is false on the code: the resolver applied to the
bare selector local, which resolves to no index, raises an IndexError on
the missing name component instead of yielding an empty or default
path. -/
theorem claim8_counterexample :
    get_vectorstore (some "local") = Except.error () := by decide

/-- Claim C8, amended: the selectors local/default and default and an
absent selector all resolve to the same default path; any selector whose
slash-split has at least two components resolves without error; but the
bare selector local raises an IndexError instead of yielding a default
path. -/
theorem claim8_amended :
    (get_vectorstore (some "local/default") = get_vectorstore (some "default") ∧
     get_vectorstore (some "default") = get_vectorstore none ∧
     get_vectorstore none = Except.ok "application/" ∧
     get_vectorstore (some "local") = Except.error ()) ∧
    ∀ s : String, 2 ≤ (pySplitSep '/' s.data).length →
      ∃ p, get_vectorstore (some s) = Except.ok p := by
  refine ⟨⟨by decide, by decide, by decide, by decide⟩, ?_⟩
  intro s hs
  obtain ⟨a, b, rest, hsplit⟩ : ∃ a b rest,
      pySplitSep '/' s.data = a :: b :: rest := by
    rcases hl : pySplitSep '/' s.data with _ | ⟨x, _ | ⟨y, r⟩⟩
    · rw [hl] at hs; simp at hs
    · rw [hl] at hs; simp at hs
    · exact ⟨x, y, r, rfl⟩
  simp only [get_vectorstore, hsplit, List.map_cons, List.headD_cons,
    List.getElem?_cons_succ, List.getElem?_cons_zero]
  split
  · exact ⟨_, rfl⟩
  · exact ⟨_, rfl⟩

theorem claim8_witness :
    2 ≤ (pySplitSep '/' "docs/python".data).length ∧
    ∃ p, get_vectorstore (some "docs/python") = Except.ok p :=
  ⟨by decide, claim8_amended.2 "docs/python" (by decide)⟩

end DocsGPT
